import Mathlib

/-!
# Verification of the PartFiles upload / expiry / quota core

A shallow embedding of the upload-validation pipeline of the PartFiles
file-sharing service (`src/lib/validation.ts`, `src/lib/config.ts`, the
upload route handlers, the content-serving routes and the cron cleanup
sweep), with theorems checking the natural-language specification against
the embedded code.

Modelling conventions:
* JavaScript strings are modelled as `List Char` (one `Char` per Unicode
  code point; JS operates on UTF-16 units, which coincides with this model
  on the Basic Multilingual Plane — all string constants in the code are
  ASCII).
* JS numbers used by the expiry calculator are modelled by `JsNum`
  (NaN / ±Infinity / a finite value carried as an exact scaled decimal;
  JS doubles round to 53-bit precision, which coincides with this model
  on every literal appearing in the code and claims).
* `Date.now()` is a parameter `now : Int` (milliseconds since the epoch).
* The relational store is a list of `Content` records; Prisma queries are
  translated to list operations.  The blob store and preview generator are
  external collaborators and are represented by injected parameters; the
  handler models record their side effects in an explicit event trace.
-/

namespace PartFiles

/-- JavaScript string, one entry per code point. -/
abbrev JStr := List Char

/-! ## Node `path` (posix): `basename` and `extname` -/

/-- Node `path.posix.basename`: strip trailing `/`s, then keep the part
after the last remaining `/`. -/
def basename (p : JStr) : JStr :=
  ((p.reverse.dropWhile (· = '/')).takeWhile (· ≠ '/')).reverse

/-- Node `path.posix.extname`: the suffix of the basename starting at its
last dot; empty when the basename has no dot, when its only dot is the
leading character (dotfiles), or when the basename is exactly `".."`. -/
def extname (p : JStr) : JStr :=
  let b := basename p
  if ¬ b.contains '.' then []
  else if b = ['.', '.'] then []
  else if (b.reverse.takeWhile (fun c => c ≠ '.')).length + 1 = b.length then
    []
  else '.' :: (b.reverse.takeWhile (fun c => c ≠ '.')).reverse

/-! ## `src/lib/config.ts` -/

def MAX_FILE_SIZE : Int := 100 * 1024 * 1024

def MAX_EXPIRY_HOURS_UPLOADER : Int := 168

def DEFAULT_EXPIRY_HOURS : Int := 1

def MIN_EXPIRY_MINUTES : Int := 5

/-- `STORAGE_LIMITS[role] ?? 0` (bytes). -/
def STORAGE_LIMITS (role : JStr) : Int :=
  if role = "admin".data then 2 * 1024 * 1024 * 1024
  else if role = "uploader".data then 500 * 1024 * 1024
  else 0

def ALLOWED_EXTENSIONS : List JStr :=
  [".jpg", ".jpeg", ".png", ".gif", ".webp", ".bmp", ".ico", ".tiff", ".avif",
   ".pdf", ".doc", ".docx", ".xls", ".xlsx", ".ppt", ".pptx", ".odt", ".ods",
   ".odp", ".txt", ".csv", ".rtf",
   ".zip", ".tar", ".gz", ".bz2", ".7z", ".rar",
   ".mp3", ".mp4", ".wav", ".ogg", ".webm", ".avi", ".mov", ".flv", ".mkv",
   ".json", ".xml", ".yaml", ".yml",
   ".woff", ".woff2", ".ttf", ".otf", ".eot"].map String.data

def BLOCKED_EXTENSIONS : List JStr :=
  [".html", ".htm", ".js", ".jsx", ".ts", ".tsx", ".svg", ".php", ".asp",
   ".aspx", ".jsp", ".cgi", ".sh", ".bash", ".bat", ".cmd", ".exe", ".msi",
   ".dll", ".so", ".dylib", ".phtml", ".phar", ".htaccess", ".htpasswd",
   ".xslt"].map String.data

/-! ## `src/lib/permissions.ts` (not present under `src/`) -/

/-- Modelled from the spec: the permissions module is not part of the
provided sources.  The spec fixes the roles `admin`, `uploader`, `guest`,
with `admin` the only role passing admin-only checks. -/
def isAdmin (role : JStr) : Bool := role = "admin".data

/-- Modelled from the spec: guests cannot upload (quota 0); admins and
uploaders can. -/
def canUpload (role : JStr) : Bool :=
  role = "admin".data ∨ role = "uploader".data

/-! ## `sanitizeFilename` (`src/lib/validation.ts`) -/

/-- The character class `[a-zA-Z0-9._-]` of the sanitizer's replacement
regex. -/
def isSafeChar (c : Char) : Bool :=
  ('a' ≤ c ∧ c ≤ 'z') ∨ ('A' ≤ c ∧ c ≤ 'Z') ∨ ('0' ≤ c ∧ c ≤ '9') ∨
    c = '.' ∨ c = '_' ∨ c = '-'

/-- The first three steps of the sanitizer: basename, replace characters
outside `[a-zA-Z0-9._-]` by `_`, strip leading dots. -/
def cleanedName (filename : JStr) : JStr :=
  (((basename filename).map (fun c => if isSafeChar c then c else '_')).dropWhile
    (· = '.'))

/-- `sanitizeFilename`: basename, replace unsafe chars by `_`, strip
leading dots, truncate to 200 chars preserving the extension
(`substring(0, 200 - ext.length)` clamps a negative bound to 0, as does
`Nat` subtraction), fall back to `"unnamed_file"` when empty. -/
def sanitizeFilename (filename : JStr) : JStr :=
  let s3 := cleanedName filename
  let s4 :=
    if 200 < s3.length then
      let ext := extname s3
      s3.take (200 - ext.length) ++ ext
    else s3
  if s4 = [] then "unnamed_file".data else s4

/-! ## `validateExtension` (`src/lib/validation.ts`) -/

/-- ASCII fragment of JS `toLowerCase` (every string constant compared
against is ASCII). -/
def jsToLower (c : Char) : Char :=
  if 'A' ≤ c ∧ c ≤ 'Z' then Char.ofNat (c.toNat + 32) else c

/-- `String.prototype.split(sep)` for a one-character separator: a
separator opens a new (empty) group, any other character is prepended to
the first group (`splitSep` never returns `[]`, so `headI`/`tail` pick
that group). -/
def splitSep (sep : Char) : JStr → List JStr
  | [] => [[]]
  | c :: rest =>
    let r := splitSep sep rest
    if c = sep then [] :: r else (c :: r.headI) :: r.tail

/-- The interior segments of the split filename: indices `1` to
`parts.length - 2` of the loop in `validateExtension`. -/
def interiorSegments (parts : List JStr) : List JStr :=
  (parts.drop 1).dropLast

structure ExtResult where
  valid : Bool
  extension : JStr
  error : Option JStr
  deriving DecidableEq, Repr

/-- `validateExtension`: final extension must exist; interior segments of
the lowercased dot-split filename are checked against the block-list
first; then the final extension against the block-list, then the
allow-list. -/
def validateExtension (filename : JStr) : ExtResult :=
  let ext := (extname filename).map jsToLower
  if ext = [] then
    ⟨false, [], some "File must have an extension".data⟩
  else
    let parts := splitSep '.' (filename.map jsToLower)
    match (interiorSegments parts).find?
        (fun seg => BLOCKED_EXTENSIONS.contains ('.' :: seg)) with
    | some seg =>
      ⟨false, '.' :: seg,
        some ("Filename contains blocked extension '".data ++ ('.' :: seg)
          ++ "'".data)⟩
    | none =>
      if BLOCKED_EXTENSIONS.contains ext then
        ⟨false, ext,
          some ("File extension '".data ++ ext
            ++ "' is blocked for security reasons".data)⟩
      else if ¬ ALLOWED_EXTENSIONS.contains ext then
        ⟨false, ext,
          some ("File extension '".data ++ ext ++ "' is not allowed".data)⟩
      else ⟨true, ext, none⟩

/-! ## `validateFileSize` (`src/lib/validation.ts`) -/

structure SizeResult where
  valid : Bool
  error : Option JStr
  deriving DecidableEq, Repr

def validateFileSize (size : Int) : SizeResult :=
  if size ≤ 0 then ⟨false, some "File is empty".data⟩
  else if MAX_FILE_SIZE < size then
    ⟨false, some "File exceeds maximum size of 100MB".data⟩
  else ⟨true, none⟩

/-! ## JS numbers and `parseFloat`

Every number the expiry calculator manipulates is an exact decimal
(`parseFloat` of a decimal literal, scaled by powers of 10, shifted by an
integer `Date.now()`), so finite JS numbers are embedded as scaled
decimal integers `mant / 10 ^ scale` — exact, and reducible by the
kernel, unlike `ℚ` whose operations do not unfold there.  `Dec.toRat`
gives the semantic value; lemmas below check the operations against it. -/

/-- An exact decimal `mant / 10 ^ scale`.  Values built by `Dec.norm` are
canonical (no trailing zero factors), so structural equality coincides
with semantic equality on them. -/
structure Dec where
  mant : Int
  scale : ℕ
  deriving DecidableEq, Repr

namespace Dec

/-- Canonical form: strip factors of 10 out of the scale. -/
def norm : Int → ℕ → Dec
  | m, 0 => ⟨m, 0⟩
  | m, s + 1 => if m % 10 = 0 then norm (m / 10) s else ⟨m, s + 1⟩

def ofInt (n : Int) : Dec := ⟨n, 0⟩

/-- Semantic value. -/
def toRat (d : Dec) : ℚ := (d.mant : ℚ) / 10 ^ d.scale

def blt (a b : Dec) : Bool := a.mant * 10 ^ b.scale < b.mant * 10 ^ a.scale

def ble (a b : Dec) : Bool := a.mant * 10 ^ b.scale ≤ b.mant * 10 ^ a.scale

def mul (a b : Dec) : Dec := norm (a.mant * b.mant) (a.scale + b.scale)

def add (a b : Dec) : Dec :=
  norm (a.mant * 10 ^ b.scale + b.mant * 10 ^ a.scale) (a.scale + b.scale)

end Dec

/-- A JS number as used by the expiry calculator: NaN, ±Infinity, or a
finite exact decimal. -/
inductive JsNum where
  | nan
  | posInf
  | negInf
  | fin (d : Dec)
  deriving DecidableEq, Repr

namespace JsNum

/-- JS `<` (false on NaN). -/
def lt : JsNum → JsNum → Bool
  | fin a, fin b => a.blt b
  | nan, _ => false
  | _, nan => false
  | negInf, negInf => false
  | negInf, _ => true
  | _, negInf => false
  | posInf, _ => false
  | fin _, posInf => true

/-- JS `<=` (false on NaN). -/
def le : JsNum → JsNum → Bool
  | fin a, fin b => a.ble b
  | nan, _ => false
  | _, nan => false
  | negInf, _ => true
  | _, negInf => false
  | _, posInf => true
  | posInf, fin _ => false

/-- JS `>`. -/
def gt (a b : JsNum) : Bool := lt b a

/-- Multiplication by a positive integer constant. -/
def mulPos (x : JsNum) (c : Int) : JsNum :=
  match x with
  | nan => nan
  | posInf => posInf
  | negInf => negInf
  | fin d => fin (d.mul (Dec.ofInt c))

/-- Addition of an integer (a `Date.now()` timestamp). -/
def addInt (a : Int) : JsNum → JsNum
  | nan => nan
  | posInf => posInf
  | negInf => negInf
  | fin d => fin ((Dec.ofInt a).add d)

end JsNum

/-- The time value of `new Date(x)` (ECMAScript `TimeClip`): truncated
toward zero when finite and within ±8.64e15 ms, otherwise NaN
(an Invalid Date). -/
def timeClip (x : JsNum) : JsNum :=
  match x with
  | JsNum.fin d =>
    if d.mant.natAbs ≤ 8640000000000000 * 10 ^ d.scale then
      JsNum.fin (Dec.ofInt (Int.tdiv d.mant (10 ^ d.scale)))
    else JsNum.nan
  | _ => JsNum.nan

def isDigit (c : Char) : Bool := '0' ≤ c ∧ c ≤ '9'

def digitsVal (l : JStr) : ℕ := l.foldl (fun a c => 10 * a + (c.toNat - 48)) 0

/-- The `StrWhiteSpace` characters skipped by `parseFloat`. -/
def jsWhitespace (c : Char) : Bool :=
  c.toNat ∈ [0x09, 0x0A, 0x0B, 0x0C, 0x0D, 0x20, 0xA0, 0x1680,
    0x2000, 0x2001, 0x2002, 0x2003, 0x2004, 0x2005, 0x2006, 0x2007,
    0x2008, 0x2009, 0x200A, 0x2028, 0x2029, 0x202F, 0x205F, 0x3000, 0xFEFF]

/-- The exponent part of a decimal literal: `e`/`E`, optional sign,
digits; not consumed when no digit follows (longest valid prefix). -/
def parseExponent (r : JStr) : Int :=
  match r with
  | c :: rest =>
    if c = 'e' ∨ c = 'E' then
      match rest with
      | '+' :: r3 =>
        if r3.takeWhile isDigit = [] then 0 else (digitsVal (r3.takeWhile isDigit) : Int)
      | '-' :: r3 =>
        if r3.takeWhile isDigit = [] then 0 else -(digitsVal (r3.takeWhile isDigit) : Int)
      | r3 =>
        if r3.takeWhile isDigit = [] then 0 else (digitsVal (r3.takeWhile isDigit) : Int)
    else 0
  | [] => 0

/-- JS `parseFloat`: skip whitespace, optional sign, then the longest
prefix that is `Infinity` or a decimal literal; NaN when there is none.
Finite values are exact decimals (JS rounds them to doubles; every
literal relevant to the claims is representable exactly). -/
def parseFloat (s : JStr) : JsNum :=
  let t0 := s.dropWhile jsWhitespace
  let sgn : Int := match t0 with | '-' :: _ => -1 | _ => 1
  let t := match t0 with | '+' :: r => r | '-' :: r => r | _ => t0
  if "Infinity".data.isPrefixOf t then
    (if sgn = 1 then JsNum.posInf else JsNum.negInf)
  else
    let d1 := t.takeWhile isDigit
    let r1 := t.dropWhile isDigit
    let d2 := match r1 with
      | '.' :: rest => rest.takeWhile isDigit
      | _ => []
    let r2 := match r1 with
      | '.' :: rest => rest.dropWhile isDigit
      | _ => r1
    if d1 = [] ∧ d2 = [] then JsNum.nan
    else
      -- value = sgn * (d1 digits ++ d2 digits) / 10 ^ |d2| * 10 ^ exponent
      let n : Int := sgn * (digitsVal (d1 ++ d2) : Int)
      let sc : Int := (d2.length : Int) - parseExponent r2
      JsNum.fin (if 0 ≤ sc then Dec.norm n sc.toNat
        else Dec.norm (n * 10 ^ (-sc).toNat) 0)

/-! ## `validateExpiry` (`src/lib/validation.ts`) -/

structure ExpiryResult where
  valid : Bool
  expiresAt : Option JsNum
  error : Option JStr
  deriving DecidableEq, Repr

/-- `validateExpiry`: `"off"`/`null` means no expiry (admin only);
otherwise parse hours as a float and range-check.  `now` is `Date.now()`
in ms. -/
def validateExpiry (role : JStr) (expiryOption : Option JStr) (now : Int) :
    ExpiryResult :=
  if expiryOption = some "off".data ∨ expiryOption = none then
    if ¬ isAdmin role then
      ⟨false, none, some "Only admins can set content to never expire".data⟩
    else ⟨true, none, none⟩
  else
    let hours := parseFloat (expiryOption.getD [])
    if hours = JsNum.nan ∨ hours.le (JsNum.fin (Dec.ofInt 0)) then
      ⟨false, none, some "Invalid expiry time".data⟩
    else
      let minutes := hours.mulPos 60
      if minutes.lt (JsNum.fin (Dec.ofInt MIN_EXPIRY_MINUTES)) then
        ⟨false, none, some "Expiry must be at least 5 minutes".data⟩
      else if ¬ isAdmin role ∧
          (JsNum.fin (Dec.ofInt MAX_EXPIRY_HOURS_UPLOADER)).lt hours then
        ⟨false, none,
          some "Uploaders can set expiry up to 168 hours (7 days)".data⟩
      else
        ⟨true, some (timeClip (JsNum.addInt now (hours.mulPos 3600000))), none⟩

/-! ## The relational store -/

/-- A Content record (prisma model `Content`; the fields the modelled
routes write — `imageWidth`/`imageHeight` are never set by the upload
routes and are omitted). `expiresAt` is the time value of a stored
`DATETIME` (`none` = permanent). -/
structure Content where
  id : JStr
  filename : JStr
  originalFilename : JStr
  storagePath : JStr
  previewPath : Option JStr
  directory : Option JStr
  fileSize : Int
  fileExtension : JStr
  mimeType : JStr
  expiresAt : Option JsNum
  uploadedById : JStr
  deriving DecidableEq, Repr

/-- A ShortSlug record. -/
structure SlugRec where
  slug : JStr
  contentId : JStr
  deriving DecidableEq, Repr

abbrev Store := List Content

/-- `expiresAt > now` on a nullable date field (`null` never matches). -/
def afterNow (e : Option JsNum) (now : Int) : Bool :=
  match e with
  | some d => d.gt (JsNum.fin (Dec.ofInt now))
  | none => false

/-- `expiresAt < now` on a nullable date field (`null` never matches);
both the read-path expiry test and the sweep's `lt` filter. -/
def beforeNow (e : Option JsNum) (now : Int) : Bool :=
  match e with
  | some d => d.lt (JsNum.fin (Dec.ofInt now))
  | none => false

/-- The Prisma `where` clause of the usage aggregation:
`uploadedById = userId AND (expiresAt = null OR expiresAt > now)`. -/
def isActiveFor (userId : JStr) (now : Int) (c : Content) : Bool :=
  c.uploadedById = userId ∧ (c.expiresAt = none ∨ afterNow c.expiresAt now)

/-- `aggregate({_sum: {fileSize}})` over the active-content clause
(`?? 0` on the empty sum). -/
def activeUsage (store : Store) (userId : JStr) (now : Int) : Int :=
  ((store.filter (isActiveFor userId now)).map Content.fileSize).sum

/-! ## `validateStorageLimit` (`src/lib/validation.ts`) -/

/-- The data of the storage-limit error message (`Storage limit exceeded.
Used: …MB / …MB. Cannot add …MB.`); the byte counts determine the
rendered message, whose exact decimal formatting (`toFixed`) is
floating-point-dependent and not needed by any claim. -/
structure QuotaErr where
  currentUsage : Int
  limit : Int
  newSize : Int
  deriving DecidableEq, Repr

inductive StorageErr where
  | uploadsNotAllowed
  | quotaExceeded (e : QuotaErr)
  deriving DecidableEq, Repr

structure StorageCheck where
  valid : Bool
  currentUsage : Int
  limit : Int
  error : Option StorageErr
  deriving DecidableEq, Repr

/-- `validateStorageLimit`: the non-transactional fast pre-check. -/
def validateStorageLimit (store : Store) (userId role : JStr)
    (newFileSize : Int) (now : Int) : StorageCheck :=
  let limit := STORAGE_LIMITS role
  if limit = 0 then ⟨false, 0, 0, some StorageErr.uploadsNotAllowed⟩
  else
    let currentUsage := activeUsage store userId now
    if limit < currentUsage + newFileSize then
      ⟨false, currentUsage, limit,
        some (StorageErr.quotaExceeded ⟨currentUsage, limit, newFileSize⟩)⟩
    else ⟨true, currentUsage, limit, none⟩

/-! ## `createContentWithStorageCheck` (`src/lib/validation.ts`) -/

/-- Either the `StorageLimitError` thrown inside the transaction
(identified by its message data) or the created record. -/
inductive TxResult where
  | storageLimitError (e : QuotaErr)
  | created (c : Content)
  deriving DecidableEq, Repr

/-- Outcome of the quota transaction: the resulting store (unchanged when
the transaction aborts) and the result. -/
structure TxOutcome where
  store : Store
  result : TxResult
  deriving DecidableEq, Repr

/-- `createContentWithStorageCheck`: inside one transaction, re-aggregate
the user's active usage and either throw `StorageLimitError` (aborting,
so the store is unchanged) or create the record. -/
def createContentWithStorageCheck (store : Store) (userId role : JStr)
    (data : Content) (now : Int) : TxOutcome :=
  let limit := STORAGE_LIMITS role
  let currentUsage := activeUsage store userId now
  if limit < currentUsage + data.fileSize then
    ⟨store, TxResult.storageLimitError ⟨currentUsage, limit, data.fileSize⟩⟩
  else ⟨store ++ [data], TxResult.created data⟩

/-! ## `validateShortSlug` and `checkSlugCollision`
(`src/lib/validation.ts`) -/

/-- JS `String.prototype.trim`: strip `jsWhitespace` from both ends. -/
def jsTrim (s : JStr) : JStr :=
  (s.dropWhile jsWhitespace).reverse.dropWhile jsWhitespace |>.reverse

def isLowerAlnum (c : Char) : Bool :=
  ('a' ≤ c ∧ c ≤ 'z') ∨ ('0' ≤ c ∧ c ≤ '9')

/-- The test of `/^[a-z0-9]+(?:-[a-z0-9]+)*$/`: split on `-`; every group
must be a nonempty run of `[a-z0-9]`. -/
def slugRegexMatch (l : JStr) : Bool :=
  (splitSep '-' l).all (fun g => g ≠ [] ∧ g.all isLowerAlnum)

structure SlugResult where
  valid : Bool
  slug : JStr
  error : Option JStr
  deriving DecidableEq, Repr

/-- `validateShortSlug`: trim + lowercase, then emptiness, length and
format checks. -/
def validateShortSlug (slug : JStr) : SlugResult :=
  let normalised := (jsTrim slug).map jsToLower
  if normalised = [] then
    ⟨false, [], some "Short slug cannot be empty".data⟩
  else if 100 < normalised.length then
    ⟨false, normalised, some "Short slug must be 100 characters or fewer".data⟩
  else if ¬ slugRegexMatch normalised then
    ⟨false, normalised,
      some ("Short slug may only contain lowercase letters, numbers, and " ++
        "hyphens (no leading/trailing/consecutive hyphens)").data⟩
  else ⟨true, normalised, none⟩

/-- `checkSlugCollision`: taken iff a slug record exists and belongs to a
different content id (`existing.contentId !== excludeContentId`; an absent
`excludeContentId` never equals a string). -/
def checkSlugCollision (slugs : List SlugRec) (slug : JStr)
    (excludeContentId : Option JStr) : Bool :=
  match slugs.find? (fun r => r.slug = slug) with
  | some existing => some existing.contentId ≠ excludeContentId
  | none => false

/-! ## The upload route handlers
(`src/app/api/upload/route.ts` and the admin upload route)

The handlers are modelled from the point where the authenticated session
and role gate have passed.  External collaborators (blob store, preview
generator, mime lookup, id generators) and failure injection are supplied
through `UploadEnv`; blob-store side effects are recorded in an event
trace.  The store the transaction sees (`txStore`) is a parameter of its
own: concurrent commits may have extended the store between the fast
pre-check and the serialized transaction (they coincide in a
single-request run). -/

/-- A blob-store side effect (`ok` = the operation did not throw). -/
inductive Ev where
  | saveBlob (path : JStr)
  | savePreview (path : JStr)
  | delBlob (path : JStr) (ok : Bool)
  | delPreview (path : JStr) (ok : Bool)
  deriving DecidableEq, Repr

/-- The JSON responses of the upload handlers, one constructor per
`return` site. -/
inductive UploadResponse where
  | noFile
  | invalidSize (msg : JStr)
  | invalidExt (msg : JStr)
  | storagePre (e : StorageErr)
  | invalidExpiry (msg : JStr)
  | dirNotAllowed (name : JStr)
  | slugInvalid (msg : JStr)
  | slugTaken (slug : JStr)
  | storageLimit (e : QuotaErr)
  | uploadFailed
  | success (id filename : JStr) (size : Int) (expiresAt : Option JsNum)
  deriving DecidableEq, Repr

/-- HTTP status of each response. -/
def UploadResponse.status : UploadResponse → ℕ
  | noFile => 400
  | invalidSize _ => 400
  | invalidExt _ => 400
  | storagePre _ => 400
  | invalidExpiry _ => 400
  | dirNotAllowed _ => 400
  | slugInvalid _ => 400
  | slugTaken _ => 409
  | storageLimit _ => 400
  | uploadFailed => 500
  | success _ _ _ _ => 200

/-- Form-data of one upload request (`none` = the field is absent). -/
structure UploadInput where
  file : Option (JStr × Int)
  customFilename : Option JStr
  expiry : Option JStr
  directory : Option JStr
  shortSlug : Option JStr
  deriving Repr

/-- Collaborators and failure injection for one request. -/
structure UploadEnv where
  now : Int
  uuid : JStr
  contentId : JStr
  mimeLookup : JStr → Option JStr
  savePath : JStr → Option JStr → JStr
  saveFails : Bool
  preview : Option JStr
  txStore : Store
  txFails : Bool
  slugCreateFails : Bool
  deleteFails : JStr → Bool
  allowedDirs : JStr → Option JStr
  slugs : List SlugRec

/-- JS `a || b` on a nullable string (`null` and `""` are falsy). -/
def orElseStr (a : Option JStr) (b : JStr) : JStr :=
  match a with
  | some s => if s = [] then b else s
  | none => b

/-- A nullable string under a JS truthiness test (`""` ↦ `null`). -/
def truthy (a : Option JStr) : Option JStr :=
  match a with
  | some s => if s = [] then none else some s
  | none => none

/-- The event recorded by `generateAndSavePreview` when it saved a
preview blob. -/
def previewSaveEvs (p : Option JStr) : List Ev :=
  match p with
  | some q => [Ev.savePreview q]
  | none => []

/-- The `catch` block's best-effort blob cleanup: `deleteFile` on the
written blob when one was written (its own failure swallowed), then
`deletePreview` (which swallows failures internally). -/
def cleanupEvents (storagePath previewPath : Option JStr)
    (deleteFails : JStr → Bool) : List Ev :=
  (match storagePath with
   | some p => [Ev.delBlob p (¬ deleteFails p)]
   | none => []) ++
  (match previewPath with
   | some p => [Ev.delPreview p (¬ deleteFails p)]
   | none => [])

/-- `POST /api/upload`: the non-admin upload orchestrator, from after the
session/role gate.  Returns the final store, the blob-store event trace
and the response. -/
def uploadPOST (store : Store) (userId role : JStr) (inp : UploadInput)
    (env : UploadEnv) : Store × List Ev × UploadResponse :=
  match inp.file with
  | none => (store, [], UploadResponse.noFile)
  | some (name, size) =>
    -- `formData.get('expiry') || String(DEFAULT_EXPIRY_HOURS)`
    let expiryOption := orElseStr inp.expiry "1".data
    let sizeR := validateFileSize size
    if ¬ sizeR.valid then
      (store, [], UploadResponse.invalidSize (sizeR.error.getD [])) else
    let originalName := if name = [] then "unnamed".data else name
    let extR := validateExtension originalName
    if ¬ extR.valid then
      (store, [], UploadResponse.invalidExt (extR.error.getD [])) else
    let storageR := validateStorageLimit store userId role size env.now
    if ¬ storageR.valid then
      (store, [], UploadResponse.storagePre
        (storageR.error.getD StorageErr.uploadsNotAllowed)) else
    let expiryR := validateExpiry role (some expiryOption) env.now
    if ¬ expiryR.valid then
      (store, [], UploadResponse.invalidExpiry (expiryR.error.getD [])) else
    let sanitized := sanitizeFilename (orElseStr inp.customFilename originalName)
    let storedFilename := env.uuid ++ '-' :: sanitized
    let mimeType := (env.mimeLookup originalName).getD
      "application/octet-stream".data
    if env.saveFails then (store, [], UploadResponse.uploadFailed) else
    let storagePath := env.savePath storedFilename none
    let evs := Ev.saveBlob storagePath :: previewSaveEvs env.preview
    if env.txFails then
      (env.txStore,
        evs ++ cleanupEvents (some storagePath) env.preview env.deleteFails,
        UploadResponse.uploadFailed)
    else
      let record : Content :=
        ⟨env.contentId, sanitized, originalName, storagePath, env.preview,
          none, size, extR.extension, mimeType, expiryR.expiresAt, userId⟩
      let tx := createContentWithStorageCheck env.txStore userId role record
        env.now
      match tx.result with
      | TxResult.storageLimitError e =>
        (tx.store,
          evs ++ cleanupEvents (some storagePath) env.preview env.deleteFails,
          UploadResponse.storageLimit e)
      | TxResult.created c =>
        (tx.store, evs,
          UploadResponse.success c.id c.filename c.fileSize c.expiresAt)

/-- The tail of the admin upload handler after the directory step: slug
validation, blob write, transaction and slug creation. -/
def adminUploadTail (store : Store) (userId role : JStr) (env : UploadEnv)
    (originalName : JStr) (size : Int) (sanitized : JStr)
    (extR : ExtResult) (expiryR : ExpiryResult)
    (directoryName subDir slugInput : Option JStr) :
    Store × List SlugRec × List Ev × UploadResponse :=
  let slugStep : Option JStr ⊕ UploadResponse :=
    match slugInput with
    | some s =>
      let sr := validateShortSlug s
      if ¬ sr.valid then Sum.inr (UploadResponse.slugInvalid (sr.error.getD []))
      else if checkSlugCollision env.slugs sr.slug none then
        Sum.inr (UploadResponse.slugTaken sr.slug)
      else Sum.inl (some sr.slug)
    | none => Sum.inl none
  match slugStep with
  | Sum.inr resp => (store, env.slugs, [], resp)
  | Sum.inl validatedSlug =>
    let storedFilename := env.uuid ++ '-' :: sanitized
    let mimeType := (env.mimeLookup originalName).getD
      "application/octet-stream".data
    if env.saveFails then (store, env.slugs, [], UploadResponse.uploadFailed) else
    let storagePath := env.savePath storedFilename subDir
    let evs := Ev.saveBlob storagePath :: previewSaveEvs env.preview
    if env.txFails then
      (env.txStore, env.slugs,
        evs ++ cleanupEvents (some storagePath) env.preview env.deleteFails,
        UploadResponse.uploadFailed)
    else
      let record : Content :=
        ⟨env.contentId, sanitized, originalName, storagePath, env.preview,
          directoryName, size, extR.extension, mimeType, expiryR.expiresAt,
          userId⟩
      let tx := createContentWithStorageCheck env.txStore userId role record
        env.now
      match tx.result with
      | TxResult.storageLimitError e =>
        (tx.store, env.slugs,
          evs ++ cleanupEvents (some storagePath) env.preview env.deleteFails,
          UploadResponse.storageLimit e)
      | TxResult.created c =>
        match validatedSlug with
        | some slug =>
          if env.slugCreateFails then
            -- the slug-creation race: the committed Content record stays
            -- while the blob is cleaned up
            (tx.store, env.slugs,
              evs ++ cleanupEvents (some storagePath) env.preview
                env.deleteFails,
              UploadResponse.uploadFailed)
          else
            (tx.store, env.slugs ++ [⟨slug, c.id⟩], evs,
              UploadResponse.success c.id c.filename c.fileSize c.expiresAt)
        | none =>
          (tx.store, env.slugs, evs,
            UploadResponse.success c.id c.filename c.fileSize c.expiresAt)

/-- `POST /api/admin/upload`: the admin upload orchestrator, from after
the session/`isAdmin` gate.  Also returns the resulting ShortSlug
table. -/
def adminUploadPOST (store : Store) (userId role : JStr) (inp : UploadInput)
    (env : UploadEnv) : Store × List SlugRec × List Ev × UploadResponse :=
  match inp.file with
  | none => (store, env.slugs, [], UploadResponse.noFile)
  | some (name, size) =>
    let expiryOption := orElseStr inp.expiry "off".data
    let sizeR := validateFileSize size
    if ¬ sizeR.valid then
      (store, env.slugs, [], UploadResponse.invalidSize (sizeR.error.getD [])) else
    let originalName := if name = [] then "unnamed".data else name
    let extR := validateExtension originalName
    if ¬ extR.valid then
      (store, env.slugs, [], UploadResponse.invalidExt (extR.error.getD [])) else
    let storageR := validateStorageLimit store userId role size env.now
    if ¬ storageR.valid then
      (store, env.slugs, [], UploadResponse.storagePre
        (storageR.error.getD StorageErr.uploadsNotAllowed)) else
    let expiryR := validateExpiry role (some expiryOption) env.now
    if ¬ expiryR.valid then
      (store, env.slugs, [], UploadResponse.invalidExpiry (expiryR.error.getD [])) else
    match truthy inp.directory with
    | some d =>
      match env.allowedDirs d with
      | none => (store, env.slugs, [], UploadResponse.dirNotAllowed d)
      | some subDir =>
        adminUploadTail store userId role env originalName size
          (sanitizeFilename (orElseStr inp.customFilename originalName))
          extR expiryR (some d) (some subDir) (truthy inp.shortSlug)
    | none =>
      adminUploadTail store userId role env originalName size
        (sanitizeFilename (orElseStr inp.customFilename originalName))
        extR expiryR none none (truthy inp.shortSlug)

/-! ## The content-serving read paths
(`GET /api/s/[slug]` and the by-id raw route) -/

/-- A ShortSlug row together with its (non-nullable) Content relation, as
returned by `findUnique({include: {content: true}})`. -/
structure SlugJoin where
  slug : JStr
  content : Content
  deriving DecidableEq, Repr

/-- Outcome of a content-serving request, one constructor per `return`
site. -/
inductive ServeResult where
  | notFound
  | expired
  | fileMissing
  | served (c : Content)
  deriving DecidableEq, Repr

def ServeResult.status : ServeResult → ℕ
  | notFound => 404
  | expired => 410
  | fileMissing => 404
  | served _ => 200

/-- The error message of each non-success outcome. -/
def ServeResult.errorMessage : ServeResult → Option JStr
  | ServeResult.notFound => some "Content not found".data
  | ServeResult.expired => some "Content has expired".data
  | ServeResult.fileMissing => some "File not found on disk".data
  | ServeResult.served _ => none

/-- `GET /api/s/[slug]`: slug lookup, lazy expiry check, file read
(`fsRead` tells whether the blob exists on disk). -/
def serveBySlug (slugTable : List SlugJoin) (slug : JStr) (now : Int)
    (fsRead : JStr → Bool) : ServeResult :=
  match slugTable.find? (fun r => r.slug = slug) with
  | none => ServeResult.notFound
  | some r =>
    if beforeNow r.content.expiresAt now then ServeResult.expired
    else if fsRead r.content.storagePath then ServeResult.served r.content
    else ServeResult.fileMissing

/-- The by-id serving route: id lookup, lazy expiry check, file read. -/
def serveById (contents : Store) (id : JStr) (now : Int)
    (fsRead : JStr → Bool) : ServeResult :=
  match contents.find? (fun c => c.id = id) with
  | none => ServeResult.notFound
  | some content =>
    if beforeNow content.expiresAt now then ServeResult.expired
    else if fsRead content.storagePath then ServeResult.served content
    else ServeResult.fileMissing

/-! ## The cleanup sweep (`POST /api/cron/cleanup`) -/

/-- Failure injection for one sweep: whether each blob / preview / record
deletion throws. -/
structure SweepEnv where
  blobDelFails : JStr → Bool
  previewDelFails : JStr → Bool
  recordDelFails : JStr → Bool

structure SweepReport where
  found : ℕ
  deleted : ℕ
  errors : ℕ
  deriving DecidableEq, Repr

/-- One iteration of the sweep loop over an expired item: `deleteFile`
(may throw), `deletePreview` (swallows its own failure), record delete
(may throw); a throw is caught and counted. -/
def sweepStep (env : SweepEnv) (acc : Store × List Ev × ℕ × ℕ)
    (item : Content) : Store × List Ev × ℕ × ℕ :=
  match acc with
  | (st, evs, del, err) =>
    if env.blobDelFails item.storagePath then
      (st, evs ++ [Ev.delBlob item.storagePath false], del, err + 1)
    else
      let pevs := match item.previewPath with
        | some p => [Ev.delPreview p (¬ env.previewDelFails p)]
        | none => []
      if env.recordDelFails item.id then
        (st, evs ++ Ev.delBlob item.storagePath true :: pevs, del, err + 1)
      else
        (st.filter (fun c => c.id ≠ item.id),
          evs ++ Ev.delBlob item.storagePath true :: pevs, del + 1, err)

/-- The cleanup sweep: select records with `expiresAt < now` (`null`
never matches), process each independently, return the tallies. -/
def cleanupSweep (store : Store) (now : Int) (env : SweepEnv) :
    Store × List Ev × SweepReport :=
  let expired := store.filter (fun c => beforeNow c.expiresAt now)
  let fin := expired.foldl (sweepStep env) (store, [], 0, 0)
  (fin.1, fin.2.1, ⟨expired.length, fin.2.2.1, fin.2.2.2⟩)

/-! ## Definitions used by the claim statements -/

/-- Whether the sweep loop body completes for an item: its blob deletion
and its record deletion both succeed (preview deletion cannot throw). -/
def sweepOk (env : SweepEnv) (c : Content) : Bool :=
  ¬ env.blobDelFails c.storagePath ∧ ¬ env.recordDelFails c.id

/-- The slug format as the spec words it: one or more groups of lowercase
alphanumerics separated by single hyphens. -/
def SlugGroups (l : JStr) : Prop :=
  ∃ groups : List JStr, groups ≠ [] ∧
    (∀ g ∈ groups, g ≠ [] ∧ ∀ c ∈ g, isLowerAlnum c = true) ∧
    l = List.intercalate ['-'] groups

/-- A 252-character name `a.bbb…b` whose extension is 251 characters
long; exercises the sanitizer's truncation branch with
`ext.length > 200`. -/
def longDotName : JStr := 'a' :: '.' :: List.replicate 250 'b'

/-- An expired content record carrying a preview blob. -/
def expiredPreviewItem : Content :=
  ⟨"c".data, "f.jpg".data, "f.jpg".data, "p".data, some "pv".data, none, 1,
    ".jpg".data, "image/jpeg".data, some (JsNum.fin (Dec.ofInt 0)), "u".data⟩

/-- A sweep in which every preview deletion throws while blob and record
deletions succeed. -/
def previewFailEnv : SweepEnv :=
  ⟨fun _ => false, fun _ => true, fun _ => false⟩

/-- Two expired items for the sweep witness. -/
def expiredItemA : Content :=
  ⟨"a".data, "a.pdf".data, "a.pdf".data, "pa".data, none, none, 1,
    ".pdf".data, "application/pdf".data, some (JsNum.fin (Dec.ofInt 0)),
    "u".data⟩

def expiredItemB : Content :=
  ⟨"b".data, "b.pdf".data, "b.pdf".data, "pb".data, none, none, 1,
    ".pdf".data, "application/pdf".data, some (JsNum.fin (Dec.ofInt 0)),
    "u".data⟩

/-- A sweep in which only item A's blob deletion throws. -/
def blobFailEnv : SweepEnv :=
  ⟨fun p => p = "pa".data, fun _ => false, fun _ => false⟩

/-- The storage path returned by the basic upload handler's blob write
(`saveFile(buffer, uuid + '-' + sanitized)`). -/
def storedPathOf (env : UploadEnv) (inp : UploadInput) (name : JStr) : JStr :=
  env.savePath (env.uuid ++ '-' ::
    sanitizeFilename (orElseStr inp.customFilename
      (if name = [] then "unnamed".data else name))) none

/-- A plain one-hour upload of `photo.jpg`. -/
def upInp : UploadInput :=
  ⟨some ("photo.jpg".data, 5), none, some "1".data, none, none⟩

/-- The same upload with the custom display filename `page.html`. -/
def upInpCustom : UploadInput :=
  ⟨some ("photo.jpg".data, 5), some "page.html".data, some "1".data, none,
    none⟩

/-- `page.html` over `photo.jpg` with no expiry field (admin default
`off`). -/
def upInpAdminCustom : UploadInput :=
  ⟨some ("photo.jpg".data, 5), some "page.html".data, none, none, none⟩

/-- A benign collaborator environment: ids `U`/`C`, blob paths under
`up/`, no preview, empty transaction-time store, no failures. -/
def upEnv : UploadEnv :=
  ⟨0, "U".data, "C".data, fun _ => some "image/jpeg".data,
    fun n _ => "up/".data ++ n, false, none, [], false, false,
    fun _ => false, fun _ => none, []⟩

/-- `upEnv` with the transaction failing for a non-quota reason. -/
def upEnvTxFail : UploadEnv :=
  ⟨0, "U".data, "C".data, fun _ => some "image/jpeg".data,
    fun n _ => "up/".data ++ n, false, none, [], true, false,
    fun _ => false, fun _ => none, []⟩

/-! ## Semantic correctness of the decimal arithmetic -/

theorem Dec.toRat_norm (m : Int) (s : ℕ) : (norm m s).toRat = (m : ℚ) / 10 ^ s := by
  induction s generalizing m with
  | zero => simp [norm, toRat]
  | succ s ih =>
    rw [norm]
    split
    · rename_i h
      rw [ih]
      have hm : (10 : Int) ∣ m := Int.dvd_of_emod_eq_zero h
      obtain ⟨c, rfl⟩ := hm
      rw [Int.mul_ediv_cancel_left c (by norm_num)]
      push_cast
      rw [pow_succ]
      field_simp
      ring
    · rfl

theorem Dec.toRat_blt (a b : Dec) : a.blt b = true ↔ a.toRat < b.toRat := by
  simp only [blt, toRat, decide_eq_true_eq]
  rw [div_lt_div_iff₀ (by positivity) (by positivity)]
  constructor
  · intro h
    exact_mod_cast h
  · intro h
    exact_mod_cast h

theorem Dec.toRat_ble (a b : Dec) : a.ble b = true ↔ a.toRat ≤ b.toRat := by
  simp only [ble, toRat, decide_eq_true_eq]
  rw [div_le_div_iff₀ (by positivity) (by positivity)]
  constructor
  · intro h
    exact_mod_cast h
  · intro h
    exact_mod_cast h

theorem Dec.toRat_mul (a b : Dec) : (a.mul b).toRat = a.toRat * b.toRat := by
  rw [mul, toRat_norm, toRat, toRat]
  push_cast
  rw [pow_add]
  field_simp

theorem Dec.toRat_add (a b : Dec) : (a.add b).toRat = a.toRat + b.toRat := by
  rw [add, toRat_norm, toRat, toRat]
  push_cast
  rw [pow_add]
  field_simp

/-! ## Sample evaluations of the embedded functions -/

example : parseFloat "200".data = JsNum.fin (Dec.ofInt 200) := by decide
example : parseFloat "never".data = JsNum.nan := by decide
example : parseFloat "off".data = JsNum.nan := by decide
example : parseFloat "1.5e2".data = JsNum.fin (Dec.ofInt 150) := by decide
example : parseFloat "  -3.25xyz".data = JsNum.fin ⟨-325, 2⟩ := by decide
example : (Dec.mk (-325) 2).toRat = -13/4 := by norm_num [Dec.toRat]
example : parseFloat "Infinity".data = JsNum.posInf := by decide
example : validateExpiry "admin".data (some "off".data) 0 = ⟨true, none, none⟩ := by
  decide
example : (validateExpiry "uploader".data (some "200".data) 0).error =
    some "Uploaders can set expiry up to 168 hours (7 days)".data := by decide
example : validateExpiry "admin".data (some "200".data) 0 =
    ⟨true, some (JsNum.fin (Dec.ofInt 720000000)), none⟩ := by decide
example : (validateExpiry "uploader".data (some "0.05".data) 0).error =
    some "Expiry must be at least 5 minutes".data := by decide

example : validateShortSlug "  My-Slug-01 ".data =
    ⟨true, "my-slug-01".data, none⟩ := by decide
example : (validateShortSlug "-abc".data).valid = false := by decide
example : (validateShortSlug "a--b".data).valid = false := by decide
example : (validateShortSlug "".data).error =
    some "Short slug cannot be empty".data := by decide
example : checkSlugCollision [⟨"x".data, "c1".data⟩] "x".data none = true := by
  decide
example : checkSlugCollision [⟨"x".data, "c1".data⟩] "x".data
    (some "c1".data) = false := by decide

example : sanitizeFilename "../../etc/passwd".data = "passwd".data := by decide
example : sanitizeFilename "..hidden".data = "hidden".data := by decide
example : sanitizeFilename "a b#c.txt".data = "a_b_c.txt".data := by decide
example : sanitizeFilename "///".data = "unnamed_file".data := by decide
example : (validateExtension "report.html.jpg".data).extension = ".html".data := by
  decide
example : (validateExtension "photo.jpg".data) = ⟨true, ".jpg".data, none⟩ := by
  decide
example : (validateExtension "run.sh".data).valid = false := by decide
example : extname "a.html.x/y".data = [] := by decide

/-! ## C1: the atomic storage check -/

/-- **C1.** For every upload commit where the transactional re-check finds
that the user's active usage (sum of `fileSize` over that user's content
with `expiresAt` null or in the future) plus the new file's size exceeds
the role's byte quota, `createContentWithStorageCheck` raises
`StorageLimitError` and no Content record is created (the transaction
aborts, store unchanged); otherwise the Content record is created inside
the same transaction as the usage sum. -/
theorem c1_atomic_quota_check (store : Store) (userId role : JStr)
    (data : Content) (now : Int) :
    (STORAGE_LIMITS role < activeUsage store userId now + data.fileSize →
      createContentWithStorageCheck store userId role data now =
        ⟨store,
          TxResult.storageLimitError
            ⟨activeUsage store userId now, STORAGE_LIMITS role,
              data.fileSize⟩⟩) ∧
    (activeUsage store userId now + data.fileSize ≤ STORAGE_LIMITS role →
      createContentWithStorageCheck store userId role data now =
        ⟨store ++ [data], TxResult.created data⟩) := by
  constructor <;> intro h
  · simp [createContentWithStorageCheck, h]
  · simp [createContentWithStorageCheck, not_lt.2 h]

/-- Witness for C1: a 600 MB upload by a user with no active content
exceeds the 500 MB uploader quota and aborts; a 5-byte upload commits. -/
theorem c1_atomic_quota_check_witness :
    createContentWithStorageCheck [] "u".data "uploader".data
        ⟨"c1".data, "f.pdf".data, "f.pdf".data, "p1".data, none, none,
          600000000, ".pdf".data, "application/pdf".data, none, "u".data⟩ 0 =
      ⟨[], TxResult.storageLimitError ⟨0, 524288000, 600000000⟩⟩ ∧
    createContentWithStorageCheck [] "u".data "uploader".data
        ⟨"c2".data, "g.pdf".data, "g.pdf".data, "p2".data, none, none,
          5, ".pdf".data, "application/pdf".data, none, "u".data⟩ 0 =
      ⟨[⟨"c2".data, "g.pdf".data, "g.pdf".data, "p2".data, none, none,
          5, ".pdf".data, "application/pdf".data, none, "u".data⟩],
        TxResult.created ⟨"c2".data, "g.pdf".data, "g.pdf".data, "p2".data,
          none, none, 5, ".pdf".data, "application/pdf".data, none,
          "u".data⟩⟩ :=
  ⟨(c1_atomic_quota_check [] "u".data "uploader".data _ 0).1 (by decide),
   (c1_atomic_quota_check [] "u".data "uploader".data _ 0).2 (by decide)⟩

/-! ## C7: the "never expire" option -/

/-- **C7 counterexample.** The claim speaks of the literal expiry option
`"never"`; the code's no-expiry sentinel is `"off"` (or an absent value),
and the literal string `"never"` does not parse as a number, so *both*
roles receive `Invalid expiry time` on it: the admin success and the
uploader `PermanentNotAllowed` error predicted by the claim do not
occur. -/
theorem c7_counterexample :
    validateExpiry "admin".data (some "never".data) 0 =
      ⟨false, none, some "Invalid expiry time".data⟩ ∧
    validateExpiry "uploader".data (some "never".data) 0 =
      ⟨false, none, some "Invalid expiry time".data⟩ ∧
    validateExpiry "admin".data (some "never".data) 0 ≠
      ⟨true, none, none⟩ ∧
    (validateExpiry "uploader".data (some "never".data) 0).error ≠
      some "Only admins can set content to never expire".data := by decide

/-- **C7 (amended).** For the no-expiry option — the sentinel `"off"`, or
an absent option, rather than the literal `"never"` — when the role is not
admin, expiry validation fails with the `PermanentNotAllowed` error
(`Only admins can set content to never expire`) and carries no expiry
value; when the role is admin, it succeeds with `expiresAt = null`
(permanent) and no error. -/
theorem c7_never_expiry (role : JStr) (opt : Option JStr) (now : Int)
    (hopt : opt = some "off".data ∨ opt = none) :
    (isAdmin role = false →
      validateExpiry role opt now =
        ⟨false, none,
          some "Only admins can set content to never expire".data⟩) ∧
    (isAdmin role = true →
      validateExpiry role opt now = ⟨true, none, none⟩) := by
  constructor <;> intro h <;>
    rcases hopt with rfl | rfl <;>
      simp [validateExpiry, h]

/-- Witness for C7: uploader is refused, admin gets a permanent upload. -/
theorem c7_never_expiry_witness :
    validateExpiry "uploader".data (some "off".data) 0 =
      ⟨false, none,
        some "Only admins can set content to never expire".data⟩ ∧
    validateExpiry "admin".data (some "off".data) 0 = ⟨true, none, none⟩ :=
  ⟨(c7_never_expiry "uploader".data (some "off".data) 0
      (Or.inl rfl)).1 (by decide),
   (c7_never_expiry "admin".data (some "off".data) 0
      (Or.inl rfl)).2 (by decide)⟩

/-! ## C8: numeric expiry options -/

/-- **C8.** For every numeric expiry option: a value that does not parse
to a positive number fails with `InvalidExpiry`; a positive value shorter
than 5 minutes fails with `ExpiryTooShort`; for non-admin roles a value
exceeding 168 hours fails with `ExpiryTooLong` while admins are exempt
from the ceiling (in particular `"200"` hours fails for role uploader and
succeeds for role admin); on success the computed expiry equals the
current time plus the requested duration (the `Date` built from
`now + hours·3600000` ms). -/
theorem c8_numeric_expiry (role s : JStr) (now : Int)
    (hoff : s ≠ "off".data) :
    ((parseFloat s = JsNum.nan ∨
        (parseFloat s).le (JsNum.fin (Dec.ofInt 0)) = true) →
      validateExpiry role (some s) now =
        ⟨false, none, some "Invalid expiry time".data⟩) ∧
    (¬ (parseFloat s = JsNum.nan ∨
        (parseFloat s).le (JsNum.fin (Dec.ofInt 0)) = true) →
      ((parseFloat s).mulPos 60).lt (JsNum.fin (Dec.ofInt MIN_EXPIRY_MINUTES)) = true →
      validateExpiry role (some s) now =
        ⟨false, none, some "Expiry must be at least 5 minutes".data⟩) ∧
    (¬ (parseFloat s = JsNum.nan ∨
        (parseFloat s).le (JsNum.fin (Dec.ofInt 0)) = true) →
      ((parseFloat s).mulPos 60).lt (JsNum.fin (Dec.ofInt MIN_EXPIRY_MINUTES)) = false →
      isAdmin role = false →
      (JsNum.fin (Dec.ofInt MAX_EXPIRY_HOURS_UPLOADER)).lt (parseFloat s) = true →
      validateExpiry role (some s) now =
        ⟨false, none,
          some "Uploaders can set expiry up to 168 hours (7 days)".data⟩) ∧
    (¬ (parseFloat s = JsNum.nan ∨
        (parseFloat s).le (JsNum.fin (Dec.ofInt 0)) = true) →
      ((parseFloat s).mulPos 60).lt (JsNum.fin (Dec.ofInt MIN_EXPIRY_MINUTES)) = false →
      (isAdmin role = true ∨
        (JsNum.fin (Dec.ofInt MAX_EXPIRY_HOURS_UPLOADER)).lt (parseFloat s) = false) →
      validateExpiry role (some s) now =
        ⟨true,
          some (timeClip (JsNum.addInt now ((parseFloat s).mulPos 3600000))),
          none⟩) ∧
    (validateExpiry "uploader".data (some "200".data) now =
      ⟨false, none,
        some "Uploaders can set expiry up to 168 hours (7 days)".data⟩ ∧
     validateExpiry "admin".data (some "200".data) now =
      ⟨true,
        some (timeClip (JsNum.addInt now
          ((parseFloat "200".data).mulPos 3600000))),
        none⟩) := by
  refine ⟨?_, ?_, ?_, ?_, ?_, ?_⟩
  · intro h
    simp [validateExpiry, hoff, h]
  · intro h hshort
    simp [validateExpiry, hoff, h, hshort]
  · intro h hshort hadm hlong
    simp [validateExpiry, hoff, h, hshort, hadm, hlong]
  · intro h hshort hceil
    rcases hceil with hadm | hlong
    · simp [validateExpiry, hoff, h, hshort, hadm]
    · simp [validateExpiry, hoff, h, hshort, hlong]
  · simp only [validateExpiry]
    rw [if_neg (by decide), if_neg (by decide), if_neg (by decide),
      if_pos (by decide)]
  · simp only [validateExpiry]
    rw [if_neg (by decide), if_neg (by decide), if_neg (by decide),
      if_neg (by decide)]
    rfl

/-- Witness for C8: `"never"` is invalid, `"0.05"` hours is under 5
minutes, `"200"` hours is over the uploader ceiling, and an admin's
`"24"` hours yields `now + 24·3600000` ms. -/
theorem c8_numeric_expiry_witness :
    validateExpiry "uploader".data (some "never".data) 0 =
      ⟨false, none, some "Invalid expiry time".data⟩ ∧
    validateExpiry "uploader".data (some "0.05".data) 0 =
      ⟨false, none, some "Expiry must be at least 5 minutes".data⟩ ∧
    validateExpiry "uploader".data (some "200".data) 0 =
      ⟨false, none,
        some "Uploaders can set expiry up to 168 hours (7 days)".data⟩ ∧
    validateExpiry "admin".data (some "24".data) 0 =
      ⟨true, some (JsNum.fin (Dec.ofInt 86400000)), none⟩ := by
  refine ⟨(c8_numeric_expiry "uploader".data "never".data 0 (by decide)).1
      (Or.inl (by decide)),
    (c8_numeric_expiry "uploader".data "0.05".data 0 (by decide)).2.1
      (by decide) (by decide),
    (c8_numeric_expiry "uploader".data "200".data 0 (by decide)).2.2.1
      (by decide) (by decide) (by decide) (by decide), ?_⟩
  have h := (c8_numeric_expiry "admin".data "24".data 0 (by decide)).2.2.2.1
    (by decide) (by decide) (Or.inl (by decide))
  rw [h]
  decide

/-! ## C5: lazy expiry on the read paths -/

/-- **C5.** On every content-serving read path (by id or by slug): a
record whose `expiresAt` is non-null and earlier than the current time is
refused with the distinct `Content has expired` outcome (HTTP 410), a
missing record yields `Content not found` (HTTP 404), and these two
outcomes are never conflated; a record with `expiresAt` null is never
treated as expired regardless of elapsed time, independently of whether
the cleanup sweep has run (the outcome depends only on the record and the
current time). -/
theorem c5_read_path_expiry (slugTable : List SlugJoin) (contents : Store)
    (slug id : JStr) (now : Int) (fsRead : JStr → Bool) :
    (slugTable.find? (fun r => r.slug = slug) = none →
      serveBySlug slugTable slug now fsRead = ServeResult.notFound) ∧
    (∀ r, slugTable.find? (fun r => r.slug = slug) = some r →
      ∀ d, r.content.expiresAt = some d →
        d.lt (JsNum.fin (Dec.ofInt now)) = true →
        serveBySlug slugTable slug now fsRead = ServeResult.expired) ∧
    (∀ r, slugTable.find? (fun r => r.slug = slug) = some r →
      r.content.expiresAt = none →
      serveBySlug slugTable slug now fsRead ≠ ServeResult.expired) ∧
    (contents.find? (fun c => c.id = id) = none →
      serveById contents id now fsRead = ServeResult.notFound) ∧
    (∀ c, contents.find? (fun c => c.id = id) = some c →
      ∀ d, c.expiresAt = some d →
        d.lt (JsNum.fin (Dec.ofInt now)) = true →
        serveById contents id now fsRead = ServeResult.expired) ∧
    (∀ c, contents.find? (fun c => c.id = id) = some c →
      c.expiresAt = none →
      serveById contents id now fsRead ≠ ServeResult.expired) ∧
    (ServeResult.notFound ≠ ServeResult.expired ∧
      ServeResult.status ServeResult.notFound = 404 ∧
      ServeResult.status ServeResult.expired = 410 ∧
      ServeResult.errorMessage ServeResult.notFound =
        some "Content not found".data ∧
      ServeResult.errorMessage ServeResult.expired =
        some "Content has expired".data) := by
  refine ⟨?_, ?_, ?_, ?_, ?_, ?_, by decide⟩
  · intro h
    simp [serveBySlug, h]
  · intro r hr d hd hlt
    simp [serveBySlug, hr, beforeNow, hd, hlt]
  · intro r hr hnone
    simp [serveBySlug, hr, beforeNow, hnone]
    split <;> simp
  · intro h
    simp [serveById, h]
  · intro c hc d hd hlt
    simp [serveById, hc, beforeNow, hd, hlt]
  · intro c hc hnone
    simp [serveById, hc, beforeNow, hnone]
    split <;> simp

/-- Witness for C5: a one-record table whose record expired at time 5,
read at time 10; a missing slug and a permanent record. -/
theorem c5_read_path_expiry_witness :
    serveBySlug
        [⟨"s".data, ⟨"c".data, "f.txt".data, "f.txt".data, "p".data, none,
          none, 1, ".txt".data, "text/plain".data,
          some (JsNum.fin (Dec.ofInt 5)), "u".data⟩⟩]
        "s".data 10 (fun _ => true) = ServeResult.expired ∧
    serveBySlug [] "s".data 10 (fun _ => true) = ServeResult.notFound ∧
    serveById
        [⟨"c".data, "f.txt".data, "f.txt".data, "p".data, none, none, 1,
          ".txt".data, "text/plain".data, none, "u".data⟩]
        "c".data 999999999 (fun _ => true) ≠ ServeResult.expired := by
  refine ⟨?_, ?_, ?_⟩
  · exact (c5_read_path_expiry _ [] "s".data "".data 10 (fun _ => true)).2.1
      ⟨"s".data, ⟨"c".data, "f.txt".data, "f.txt".data, "p".data, none,
        none, 1, ".txt".data, "text/plain".data,
        some (JsNum.fin (Dec.ofInt 5)), "u".data⟩⟩
      (by decide) (JsNum.fin (Dec.ofInt 5)) (by decide) (by decide)
  · exact (c5_read_path_expiry [] [] "s".data "".data 10 (fun _ => true)).1
      (by decide)
  · exact (c5_read_path_expiry [] _ "".data "c".data 999999999
      (fun _ => true)).2.2.2.2.2.1
      ⟨"c".data, "f.txt".data, "f.txt".data, "p".data, none, none, 1,
        ".txt".data, "text/plain".data, none, "u".data⟩
      (by decide) (by decide)

/-! ## C6: the cleanup sweep -/

/-- How one sweep iteration transforms the store and the two tallies,
according to whether the item's blob and record deletions succeed. -/
theorem sweepStep_proj (env : SweepEnv) (acc : Store × List Ev × ℕ × ℕ)
    (item : Content) :
    (sweepStep env acc item).1 =
      (if sweepOk env item then acc.1.filter (fun c => c.id ≠ item.id)
       else acc.1) ∧
    (sweepStep env acc item).2.2.1 =
      acc.2.2.1 + (if sweepOk env item then 1 else 0) ∧
    (sweepStep env acc item).2.2.2 =
      acc.2.2.2 + (if sweepOk env item then 0 else 1) := by
  obtain ⟨st, evs, d, e⟩ := acc
  by_cases hb : env.blobDelFails item.storagePath
  · simp [sweepStep, sweepOk, hb]
  · by_cases hr : env.recordDelFails item.id
    · simp [sweepStep, sweepOk, hb, hr]
    · simp [sweepStep, sweepOk, hb, hr]

/-- The `deleted`/`errors` tallies of the sweep loop: each item processed
contributes to exactly one of them, according to whether its blob and
record deletions both succeeded. -/
theorem sweepFold_counts (env : SweepEnv) (l : List Content)
    (acc : Store × List Ev × ℕ × ℕ) :
    (l.foldl (sweepStep env) acc).2.2.1 =
      acc.2.2.1 + l.countP (sweepOk env) ∧
    (l.foldl (sweepStep env) acc).2.2.2 =
      acc.2.2.2 + l.countP (fun c => ! sweepOk env c) := by
  induction l generalizing acc with
  | nil => simp
  | cons item l ih =>
    rw [List.foldl_cons, List.countP_cons, List.countP_cons]
    rcases ih (sweepStep env acc item) with ⟨h1, h2⟩
    rcases sweepStep_proj env acc item with ⟨_, h4, h5⟩
    rw [h1, h2, h4, h5]
    cases h : sweepOk env item <;> simp [h] <;> omega

/-- The store left by the sweep loop: a record survives unless some
processed item with the same id had both its blob and record deletions
succeed. -/
theorem sweepFold_store (env : SweepEnv) (l : List Content)
    (acc : Store × List Ev × ℕ × ℕ) :
    (l.foldl (sweepStep env) acc).1 =
      acc.1.filter (fun c =>
        l.all (fun item => !(sweepOk env item && c.id == item.id))) := by
  induction l generalizing acc with
  | nil => simp
  | cons item l ih =>
    rw [List.foldl_cons, ih (sweepStep env acc item),
      (sweepStep_proj env acc item).1]
    cases h : sweepOk env item
    · rw [if_neg (by simp [h])]
      apply List.filter_congr
      intro x _
      rw [List.all_cons, h]
      simp
    · rw [if_pos rfl, List.filter_filter]
      apply List.filter_congr
      intro x _
      rw [List.all_cons, h]
      simp only [Bool.true_and, Bool.and_comm]
      congr 1
      cases hx : (x.id == item.id)
      · simp only [beq_eq_false_iff_ne, ne_eq] at hx
        simp [hx]
      · simp only [beq_iff_eq] at hx
        simp [hx]

/-- Each list element is counted by exactly one of `p` and `!p`. -/
theorem countP_add_countP_not (p : Content → Bool) (l : List Content) :
    l.countP p + l.countP (fun c => ! p c) = l.length := by
  induction l with
  | nil => simp
  | cons a l ih =>
    rw [List.countP_cons, List.countP_cons]
    cases h : p a <;> simp [h] <;> omega

/-- **C6 counterexample.** The claim says a failure while deleting an
item's *preview* increments the error counter; `deletePreview` swallows
its own failures, so a sweep over one expired item whose preview deletion
throws reports `found = 1, deleted = 1, errors = 0` — the failure
happened (the trace records the failed preview deletion) yet the error
counter stays 0 and the item still counts as deleted. -/
theorem c6_counterexample :
    cleanupSweep [expiredPreviewItem] 10 previewFailEnv =
      ([], [Ev.delBlob "p".data true, Ev.delPreview "pv".data false],
        ⟨1, 1, 0⟩) ∧
    previewFailEnv.previewDelFails "pv".data = true ∧
    ¬ 1 ≤ (cleanupSweep [expiredPreviewItem] 10 previewFailEnv).2.2.errors := by
  decide

/-- **C6 (amended).** The cleanup sweep selects exactly the content
records whose `expiresAt` is strictly in the past (records with
`expiresAt` null are never selected); each selected item is processed
independently — a failure while deleting an item's blob or relational
record increments the error counter without aborting the remaining items,
while a preview-deletion failure is swallowed inside the preview helper
and is not counted — an item's relational record is deleted exactly when
its blob deletion and record deletion both succeed (in particular only
when its blob deletion did not fail), and the sweep returns the counts
found (all selected), deleted, and errors, with
`deleted + errors = found`. -/
theorem c6_cleanup_sweep (store : Store) (now : Int) (env : SweepEnv) :
    (cleanupSweep store now env).2.2 =
      ⟨(store.filter (fun c => beforeNow c.expiresAt now)).length,
        (store.filter (fun c => beforeNow c.expiresAt now)).countP
          (sweepOk env),
        (store.filter (fun c => beforeNow c.expiresAt now)).countP
          (fun c => ! sweepOk env c)⟩ ∧
    (∀ c ∈ store, c.expiresAt = none → beforeNow c.expiresAt now = false) ∧
    (cleanupSweep store now env).2.2.deleted +
        (cleanupSweep store now env).2.2.errors =
      (cleanupSweep store now env).2.2.found ∧
    (cleanupSweep store now env).1 =
      store.filter (fun c =>
        (store.filter (fun c => beforeNow c.expiresAt now)).all
          (fun item => !(sweepOk env item && c.id == item.id))) := by
  rcases sweepFold_counts env
      (store.filter (fun c => beforeNow c.expiresAt now)) (store, [], 0, 0)
    with ⟨h1, h2⟩
  simp only [Nat.zero_add] at h1 h2
  refine ⟨?_, ?_, ?_, ?_⟩
  · simp only [cleanupSweep]
    rw [SweepReport.mk.injEq]
    exact ⟨rfl, h1, h2⟩
  · intro c _ hc
    simp [beforeNow, hc]
  · simp only [cleanupSweep]
    rw [h1, h2]
    exact countP_add_countP_not (sweepOk env) _
  · simp only [cleanupSweep]
    exact sweepFold_store env _ (store, [], 0, 0)

/-- Witness for C6: two expired items, item A's blob deletion throwing:
the sweep reports `found = 2, deleted = 1, errors = 1` and only item A's
record survives. -/
theorem c6_cleanup_sweep_witness :
    (cleanupSweep [expiredItemA, expiredItemB] 10 blobFailEnv).2.2 =
      ⟨2, 1, 1⟩ ∧
    (cleanupSweep [expiredItemA, expiredItemB] 10 blobFailEnv).1 =
      [expiredItemA] := by
  have h := c6_cleanup_sweep [expiredItemA, expiredItemB] 10 blobFailEnv
  constructor
  · rw [h.1]
    decide
  · rw [h.2.2.2]
    decide

/-! ## C3: hidden blocked extensions -/

/-- **C3 counterexample.** The interior-segment check runs only after the
final-extension-exists check: `"x.html.a/y"` contains the blocked interior
segment `html`, but `path.extname` of it is empty (its basename `y` has
no dot), so `validateExtension` reports `File must have an extension`
instead of the hidden blocked segment. -/
theorem c3_counterexample :
    ("html".data ∈
        interiorSegments (splitSep '.' ("x.html.a/y".data.map jsToLower)) ∧
      ('.' :: "html".data) ∈ BLOCKED_EXTENSIONS) ∧
    validateExtension "x.html.a/y".data =
      ⟨false, [], some "File must have an extension".data⟩ ∧
    (validateExtension "x.html.a/y".data).extension ≠ ".html".data := by
  decide

/-- **C3 (amended).** For every filename whose extracted final extension
(`path.extname`) is non-empty and in which some interior dot-separated
segment (not the first base segment, not the final extension), lowercased
and prefixed with a dot, is in the fixed blocked-extension set,
`validateExtension` fails reporting the first such hidden blocked
segment, even when the filename's final extension is in the allow-list;
this interior-segment check runs before the final-extension block-list
and allow-list checks (no condition on the final extension beyond
non-emptiness is needed). -/
theorem c3_hidden_blocked (f : JStr) (hext : extname f ≠ [])
    (hseg : ∃ s ∈ interiorSegments (splitSep '.' (f.map jsToLower)),
      ('.' :: s) ∈ BLOCKED_EXTENSIONS) :
    ∃ seg,
      (interiorSegments (splitSep '.' (f.map jsToLower))).find?
          (fun seg => BLOCKED_EXTENSIONS.contains ('.' :: seg)) = some seg ∧
      ('.' :: seg) ∈ BLOCKED_EXTENSIONS ∧
      validateExtension f =
        ⟨false, '.' :: seg,
          some ("Filename contains blocked extension '".data ++ ('.' :: seg)
            ++ "'".data)⟩ := by
  have hfind : ((interiorSegments (splitSep '.' (f.map jsToLower))).find?
      (fun seg => BLOCKED_EXTENSIONS.contains ('.' :: seg))).isSome = true := by
    rw [List.find?_isSome]
    obtain ⟨s, hs, hb⟩ := hseg
    exact ⟨s, hs, by simpa using hb⟩
  obtain ⟨seg, hfind⟩ := Option.isSome_iff_exists.1 hfind
  refine ⟨seg, hfind, by simpa using List.find?_some hfind, ?_⟩
  have hmap : (extname f).map jsToLower ≠ [] := by
    intro h
    exact hext (List.map_eq_nil_iff.1 h)
  simp only [validateExtension]
  rw [if_neg hmap, hfind]

/-- Witness for C3: `report.html.jpg` has the allow-listed final
extension `.jpg` yet is rejected with its hidden `.html` segment. -/
theorem c3_hidden_blocked_witness :
    ∃ seg,
      (interiorSegments
          (splitSep '.' ("report.html.jpg".data.map jsToLower))).find?
          (fun seg => BLOCKED_EXTENSIONS.contains ('.' :: seg)) = some seg ∧
      ('.' :: seg) ∈ BLOCKED_EXTENSIONS ∧
      validateExtension "report.html.jpg".data =
        ⟨false, '.' :: seg,
          some ("Filename contains blocked extension '".data ++ ('.' :: seg)
            ++ "'".data)⟩ :=
  c3_hidden_blocked "report.html.jpg".data (by decide)
    ⟨"html".data, by decide, by decide⟩

/-! ## C9: slug validation -/

theorem splitSep_ne_nil (sep : Char) (l : JStr) : splitSep sep l ≠ [] := by
  cases l with
  | nil => simp [splitSep]
  | cons c rest => by_cases hc : c = sep <;> simp [splitSep, hc]

theorem intercalate_singleton (sep : Char) (x : JStr) :
    List.intercalate [sep] [x] = x := by
  simp [List.intercalate]

theorem intercalate_cons₂ (sep : Char) (x y : JStr) (ys : List JStr) :
    List.intercalate [sep] (x :: y :: ys) =
      x ++ sep :: List.intercalate [sep] (y :: ys) := by
  simp [List.intercalate, List.intersperse]

/-- Joining the groups of `split` with the separator restores the
string. -/
theorem intercalate_splitSep (sep : Char) (l : JStr) :
    List.intercalate [sep] (splitSep sep l) = l := by
  induction l with
  | nil => simp [splitSep, List.intercalate]
  | cons c rest ih =>
    simp only [splitSep]
    rcases h : splitSep sep rest with _ | ⟨g, gs⟩
    · exact absurd h (splitSep_ne_nil sep rest)
    · rw [h] at ih
      by_cases hc : c = sep
      · rw [if_pos hc, intercalate_cons₂, ih, hc]
        rfl
      · rw [if_neg hc]
        simp only [List.headI_cons, List.tail_cons]
        cases gs with
        | nil =>
          rw [intercalate_singleton] at ih
          rw [intercalate_singleton, ih]
        | cons g' gs' =>
          rw [intercalate_cons₂] at ih
          rw [intercalate_cons₂, List.cons_append, ih]

/-- A string free of the separator splits into itself alone. -/
theorem splitSep_of_not_mem (sep : Char) (g : JStr) (hg : sep ∉ g) :
    splitSep sep g = [g] := by
  induction g with
  | nil => simp [splitSep]
  | cons c t ih =>
    have hc : c ≠ sep := fun h => hg (h ▸ List.mem_cons_self c t)
    have ht : sep ∉ t := fun h => hg (List.mem_cons_of_mem c h)
    simp [splitSep, ih ht, hc]

/-- Splitting a separator-free prefix followed by the separator peels off
the prefix. -/
theorem splitSep_append (sep : Char) (g rest : JStr) (hg : sep ∉ g) :
    splitSep sep (g ++ sep :: rest) = g :: splitSep sep rest := by
  induction g with
  | nil => simp [splitSep]
  | cons c t ih =>
    have hc : c ≠ sep := fun h => hg (h ▸ List.mem_cons_self c t)
    have ht : sep ∉ t := fun h => hg (List.mem_cons_of_mem c h)
    rw [List.cons_append, splitSep]
    simp only [List.append_eq, ih ht, List.headI_cons, List.tail_cons]
    rw [if_neg hc]

/-- Splitting the join of separator-free groups restores the groups. -/
theorem splitSep_intercalate (sep : Char) (groups : List JStr)
    (hne : groups ≠ []) (hall : ∀ g ∈ groups, sep ∉ g) :
    splitSep sep (List.intercalate [sep] groups) = groups := by
  induction groups with
  | nil => exact absurd rfl hne
  | cons g gs ih =>
    cases gs with
    | nil =>
      rw [intercalate_singleton]
      exact splitSep_of_not_mem sep g (hall g (List.mem_cons_self g []))
    | cons g' gs' =>
      rw [intercalate_cons₂,
        splitSep_append sep g _ (hall g (List.mem_cons_self g _)),
        ih (by simp) (fun x hx => hall x (List.mem_cons_of_mem g hx))]

/-- The regex test agrees with the spec's description of the format. -/
theorem slugRegexMatch_iff (l : JStr) :
    slugRegexMatch l = true ↔ SlugGroups l := by
  constructor
  · intro h
    refine ⟨splitSep '-' l, splitSep_ne_nil '-' l, ?_,
      (intercalate_splitSep '-' l).symm⟩
    intro g hg
    have := (List.all_eq_true.1 h) g hg
    simp only [Bool.and_eq_true, decide_eq_true_eq, List.all_eq_true] at this
    exact ⟨this.1, fun c hc => this.2 c hc⟩
  · rintro ⟨groups, hne, hgood, rfl⟩
    have hfree : ∀ g ∈ groups, '-' ∉ g := by
      intro g hg hmem
      have := (hgood g hg).2 '-' hmem
      simp [isLowerAlnum] at this
    rw [slugRegexMatch, splitSep_intercalate '-' groups hne hfree,
      List.all_eq_true]
    intro g hg
    have := hgood g hg
    simp only [Bool.and_eq_true, decide_eq_true_eq, List.all_eq_true]
    exact ⟨this.1, fun c hc => this.2 c hc⟩

/-- **C9.** `validateShortSlug` trims and lowercases its input, then
fails if the result is empty, fails if it is over 100 characters, and
fails unless it matches one or more groups of lowercase alphanumerics
separated by single hyphens (no leading, trailing, or consecutive hyphens
— here as: the string is the hyphen-join of one or more nonempty
alphanumeric groups); `checkSlugCollision` on a normalized slug reports
it taken exactly when an existing slug record belongs to a different
content id, so re-submitting a slug already bound to the same (exempted)
content id passes. -/
theorem c9_slug_validation (raw s : JStr) (slugs : List SlugRec)
    (exclude : Option JStr) (rec : SlugRec) :
    ((jsTrim raw).map jsToLower = [] →
      validateShortSlug raw =
        ⟨false, [], some "Short slug cannot be empty".data⟩) ∧
    ((jsTrim raw).map jsToLower ≠ [] →
      100 < ((jsTrim raw).map jsToLower).length →
      validateShortSlug raw =
        ⟨false, (jsTrim raw).map jsToLower,
          some "Short slug must be 100 characters or fewer".data⟩) ∧
    ((validateShortSlug raw).valid = true ↔
      ((jsTrim raw).map jsToLower ≠ [] ∧
        ((jsTrim raw).map jsToLower).length ≤ 100 ∧
        SlugGroups ((jsTrim raw).map jsToLower))) ∧
    ((validateShortSlug raw).valid = true →
      (validateShortSlug raw).slug = (jsTrim raw).map jsToLower) ∧
    (checkSlugCollision slugs s exclude = true ↔
      ∃ r, slugs.find? (fun r => r.slug = s) = some r ∧
        some r.contentId ≠ exclude) ∧
    (slugs.find? (fun r => r.slug = s) = some rec →
      checkSlugCollision slugs s (some rec.contentId) = false) := by
  refine ⟨?_, ?_, ?_, ?_, ?_, ?_⟩
  · intro h
    simp [validateShortSlug, h]
  · intro h h100
    simp only [List.length_map] at h100
    simp [validateShortSlug, h, h100]
  · rw [← slugRegexMatch_iff]
    simp only [validateShortSlug]
    split_ifs with h1 h2 h3
    · simp [h1]
    · simp only [List.length_map] at h2
      simp [h2]
    · simp only [List.map_eq_nil_iff] at h1
      simp only [List.length_map, not_lt] at h2
      simp [h1, h2, h3]
    · simp [h3]
  · intro hv
    simp only [validateShortSlug] at hv ⊢
    split_ifs at hv ⊢
    rfl
  · rcases hf : slugs.find? (fun r => r.slug = s) with _ | r <;>
      simp [checkSlugCollision, hf]
  · intro hf
    simp [checkSlugCollision, hf]

/-- Witness for C9: a mixed-case padded slug normalizes and passes; a
slug bound to content `c1` is free for `c1` itself and taken for
others. -/
theorem c9_slug_validation_witness :
    validateShortSlug "  My-Slug-01 ".data =
      ⟨true, "my-slug-01".data, none⟩ ∧
    checkSlugCollision [⟨"x".data, "c1".data⟩] "x".data
      (some "c1".data) = false ∧
    checkSlugCollision [⟨"x".data, "c1".data⟩] "x".data none = true := by
  refine ⟨?_, ?_, ?_⟩
  · have hv : (validateShortSlug "  My-Slug-01 ".data).valid = true := by
      decide
    have hs := (c9_slug_validation "  My-Slug-01 ".data [] [] none
      ⟨[], []⟩).2.2.2.1 hv
    have herr : (validateShortSlug "  My-Slug-01 ".data).error = none := by
      decide
    rcases hres : validateShortSlug "  My-Slug-01 ".data with ⟨v, sl, er⟩
    rw [hres] at hv hs herr
    simp only at hv hs herr
    rw [hv, hs, herr]
    decide
  · exact (c9_slug_validation [] "x".data [⟨"x".data, "c1".data⟩]
      (some "c1".data) ⟨"x".data, "c1".data⟩).2.2.2.2.2 (by decide)
  · exact (c9_slug_validation [] "x".data [⟨"x".data, "c1".data⟩]
      none ⟨"x".data, "c1".data⟩).2.2.2.2.1.2
      ⟨⟨"x".data, "c1".data⟩, by decide, by decide⟩

/-! ## C4: the filename sanitizer -/

theorem head?_dropWhile_ne (p : Char → Bool) (l : JStr) (c : Char)
    (h : (l.dropWhile p).head? = some c) : p c = false := by
  induction l with
  | nil => simp at h
  | cons x t ih =>
    rw [List.dropWhile_cons] at h
    split at h
    · exact ih h
    · rename_i hx
      simp only [List.head?_cons, Option.some.injEq] at h
      subst h
      simpa using hx

theorem dropWhile_eq_self_of_all {p : Char → Bool} {l : JStr}
    (h : ∀ x ∈ l, p x = false) : l.dropWhile p = l := by
  cases l with
  | nil => rfl
  | cons c t =>
    rw [List.dropWhile_cons, h c (List.mem_cons_self c t)]
    simp

theorem mem_basename {c : Char} {l : JStr} (h : c ∈ basename l) : c ∈ l := by
  rw [basename, List.mem_reverse] at h
  have h2 := ((List.takeWhile_sublist _).mem h : c ∈
    l.reverse.dropWhile (· = '/'))
  exact List.mem_reverse.1 ((List.dropWhile_sublist _).mem h2)

theorem mem_extname {c : Char} {l : JStr} (h : c ∈ extname l) :
    c = '.' ∨ c ∈ l := by
  rw [extname] at h
  split at h
  · simp at h
  · split at h
    · simp at h
    · split at h
      · simp at h
      · rcases List.mem_cons.1 h with rfl | h2
        · exact Or.inl rfl
        · have h3 := List.mem_reverse.1 h2
          have h4 := (List.takeWhile_sublist _).mem h3
          exact Or.inr (mem_basename (List.mem_reverse.1 h4))

/-- A string without `/` is its own basename. -/
theorem basename_eq_self {l : JStr} (h : '/' ∉ l) : basename l = l := by
  rw [basename,
    dropWhile_eq_self_of_all (fun x hx => by
      have : x ≠ '/' := fun he => h (he ▸ List.mem_reverse.1 hx)
      simpa using this),
    List.takeWhile_eq_self_iff.2 (fun x hx => by
      have : x ≠ '/' := fun he => h (he ▸ List.mem_reverse.1 hx)
      simpa using this),
    List.reverse_reverse]

/-- Every character of the cleaned name is in `[a-zA-Z0-9._-]`. -/
theorem cleanedName_safe (f : JStr) :
    ∀ c ∈ cleanedName f, isSafeChar c = true := by
  intro c hc
  have h1 : c ∈ (basename f).map (fun c => if isSafeChar c then c else '_') :=
    (List.dropWhile_sublist _).mem hc
  rcases List.mem_map.1 h1 with ⟨a, _, ha⟩
  by_cases hs : isSafeChar a = true
  · rw [if_pos hs] at ha
    exact ha ▸ hs
  · rw [if_neg hs] at ha
    rw [← ha]
    decide

/-- The cleaned name does not start with a dot. -/
theorem cleanedName_head (f : JStr) (c : Char)
    (h : (cleanedName f).head? = some c) : c ≠ '.' := by
  have := head?_dropWhile_ne (· = '.') _ c h
  simpa using this

/-- A nonempty string of safe characters that does not start with a dot
and is at most 200 characters long is a fixed point of the sanitizer. -/
theorem sanitizeFilename_fixpoint (r : JStr) (hne : r ≠ [])
    (hsafe : ∀ c ∈ r, isSafeChar c = true)
    (hhead : r.head? ≠ some '.')
    (hlen : r.length ≤ 200) :
    sanitizeFilename r = r := by
  have hnoslash : '/' ∉ r := fun h => by
    have := hsafe _ h
    simp [isSafeChar] at this
  have hmap : r.map (fun c => if isSafeChar c then c else '_') = r := by
    have h1 : r.map (fun c => if isSafeChar c then c else '_') = r.map id :=
      List.map_congr_left (fun c hc => by rw [if_pos (hsafe c hc)]; rfl)
    rw [h1, List.map_id]
  have hclean : cleanedName r = r := by
    rw [cleanedName, basename_eq_self hnoslash, hmap]
    cases r with
    | nil => rfl
    | cons c t =>
      have hc : ¬ c = '.' := fun he => hhead (by rw [List.head?_cons, he])
      rw [List.dropWhile_cons, if_neg (by simp [hc])]
  simp only [sanitizeFilename, hclean]
  rw [if_neg (by omega : ¬ 200 < r.length), if_neg hne]

set_option maxRecDepth 8000 in
/-- **C4 counterexample.** On the 252-character input `a.b…b` (250 `b`s),
the extension kept by the truncation step is 251 characters long, so
`substring(0, 200 - ext.length)` keeps nothing and the result is the bare
extension: it starts with `'.'`, is 251 > 200 characters long, and a
second sanitization pass (which strips the leading dot and truncates)
gives a different string — refuting the no-leading-dot, length and
idempotence parts of the claim. -/
theorem c4_counterexample :
    (sanitizeFilename longDotName).head? = some '.' ∧
    200 < (sanitizeFilename longDotName).length ∧
    sanitizeFilename (sanitizeFilename longDotName) ≠
      sanitizeFilename longDotName := by decide

/-- **C4 (amended).** For every input string `f`, `sanitizeFilename f` is
non-empty and contains only characters in `[A-Za-z0-9._-]`; and whenever
the cleaned name (after basename, character replacement and leading-dot
stripping) is at most 200 characters long, or its extension is shorter
than 200 characters — i.e. except when truncation fires with a 200+
character extension — the result also never starts with `'.'`, has length
at most 200, and `sanitizeFilename` is idempotent on `f`. -/
theorem c4_sanitize_properties (f : JStr) :
    (sanitizeFilename f ≠ [] ∧
      ∀ c ∈ sanitizeFilename f, isSafeChar c = true) ∧
    ((cleanedName f).length ≤ 200 ∨ (extname (cleanedName f)).length < 200 →
      (sanitizeFilename f).head? ≠ some '.' ∧
      (sanitizeFilename f).length ≤ 200 ∧
      sanitizeFilename (sanitizeFilename f) = sanitizeFilename f) := by
  by_cases hlen : 200 < (cleanedName f).length
  · -- truncation branch
    have hs4 : sanitizeFilename f =
        if (cleanedName f).take (200 - (extname (cleanedName f)).length) ++
            extname (cleanedName f) = [] then "unnamed_file".data
        else (cleanedName f).take (200 - (extname (cleanedName f)).length) ++
          extname (cleanedName f) := by
      simp only [sanitizeFilename, if_pos hlen]
    have hlens : ((cleanedName f).take
          (200 - (extname (cleanedName f)).length) ++
          extname (cleanedName f)).length =
        min (200 - (extname (cleanedName f)).length)
          (cleanedName f).length + (extname (cleanedName f)).length := by
      rw [List.length_append, List.length_take]
    have hpos : 0 < ((cleanedName f).take
        (200 - (extname (cleanedName f)).length) ++
        extname (cleanedName f)).length := by
      rw [hlens]
      omega
    have hne : (cleanedName f).take (200 - (extname (cleanedName f)).length) ++
        extname (cleanedName f) ≠ [] :=
      List.ne_nil_of_length_pos hpos
    rw [hs4, if_neg hne]
    have hsafe : ∀ c ∈ (cleanedName f).take
        (200 - (extname (cleanedName f)).length) ++
        extname (cleanedName f), isSafeChar c = true := by
      intro c hc
      rcases List.mem_append.1 hc with h | h
      · exact cleanedName_safe f c (List.take_subset _ _ h)
      · rcases mem_extname h with rfl | h2
        · decide
        · exact cleanedName_safe f c h2
    refine ⟨⟨hne, hsafe⟩, ?_⟩
    rintro (h200 | helt)
    · omega
    · have htk : 200 - (extname (cleanedName f)).length ≠ 0 := by omega
      obtain ⟨c0, t0, hct⟩ : ∃ c0 t0, cleanedName f = c0 :: t0 := by
        cases hcf : cleanedName f with
        | nil => rw [hcf] at hlen; simp at hlen
        | cons a b => exact ⟨a, b, rfl⟩
      have hhead : ((cleanedName f).take
          (200 - (extname (cleanedName f)).length) ++
          extname (cleanedName f)).head? = some c0 := by
        rw [List.head?_append, List.head?_take, if_neg htk, hct,
          List.head?_cons, Option.or]
      have hc0 : c0 ≠ '.' :=
        cleanedName_head f c0 (by rw [hct, List.head?_cons])
      have hL : ((cleanedName f).take
          (200 - (extname (cleanedName f)).length) ++
          extname (cleanedName f)).length = 200 := by
        rw [hlens]
        omega
      refine ⟨?_, by omega, ?_⟩
      · rw [hhead]
        simp [hc0]
      · exact sanitizeFilename_fixpoint _ hne hsafe
          (by rw [hhead]; simp [hc0]) (by omega)
  · -- no truncation
    have hs4 : sanitizeFilename f =
        if cleanedName f = [] then "unnamed_file".data else cleanedName f := by
      simp only [sanitizeFilename, if_neg hlen]
    by_cases hnil : cleanedName f = []
    · rw [hs4, if_pos hnil]
      exact ⟨⟨by decide, by decide⟩,
        fun _ => ⟨by decide, by decide, by decide⟩⟩
    · rw [hs4, if_neg hnil]
      have hhd : (cleanedName f).head? ≠ some '.' :=
        fun h => cleanedName_head f '.' h rfl
      exact ⟨⟨hnil, cleanedName_safe f⟩,
        fun _ => ⟨hhd, by omega,
          sanitizeFilename_fixpoint _ hnil (cleanedName_safe f) hhd
            (by omega)⟩⟩

/-- Witness for C4: the guarantees on a path-laden, oddly-charactered
name. -/
theorem c4_sanitize_properties_witness :
    (sanitizeFilename "../wei rd#name.txt".data ≠ [] ∧
      ∀ c ∈ sanitizeFilename "../wei rd#name.txt".data,
        isSafeChar c = true) ∧
    ((sanitizeFilename "../wei rd#name.txt".data).head? ≠ some '.' ∧
      (sanitizeFilename "../wei rd#name.txt".data).length ≤ 200 ∧
      sanitizeFilename (sanitizeFilename "../wei rd#name.txt".data) =
        sanitizeFilename "../wei rd#name.txt".data) :=
  ⟨(c4_sanitize_properties "../wei rd#name.txt".data).1,
   (c4_sanitize_properties "../wei rd#name.txt".data).2 (Or.inl (by decide))⟩

/-! ## C2: rollback after the blob write -/

/-- **C2.** If the blob write has succeeded and any later step of an
upload fails (the transaction failing for an infrastructure reason, or
the atomic quota re-check raising `StorageLimitError`), the upload
handler deletes the blob it wrote at the exact storage path returned by
the blob save, and deletes any preview blob it wrote, before reporting
the error; failures during this cleanup are swallowed (the trace records
the attempt, the response does not depend on `deleteFails`) and the
reported error remains the original cause, with `StorageLimitError`
surfaced with its quota message data; the store is the one the aborted
transaction left, so (the storage path being freshly minted) no Content
record is left referencing the deleted blob. -/
theorem c2_rollback (store : Store) (userId role name : JStr) (size : Int)
    (inp : UploadInput) (env : UploadEnv)
    (hfile : inp.file = some (name, size))
    (hsize : (validateFileSize size).valid = true)
    (hext : (validateExtension
      (if name = [] then "unnamed".data else name)).valid = true)
    (hquota : (validateStorageLimit store userId role size env.now).valid =
      true)
    (hexp : (validateExpiry role (some (orElseStr inp.expiry "1".data))
      env.now).valid = true)
    (hsave : env.saveFails = false)
    (hfail : env.txFails = true ∨
      STORAGE_LIMITS role < activeUsage env.txStore userId env.now + size)
    (hfresh : ∀ c ∈ env.txStore, c.storagePath ≠ storedPathOf env inp name) :
    (uploadPOST store userId role inp env).1 = env.txStore ∧
    (uploadPOST store userId role inp env).2.1 =
      (Ev.saveBlob (storedPathOf env inp name) ::
        previewSaveEvs env.preview) ++
        cleanupEvents (some (storedPathOf env inp name)) env.preview
          env.deleteFails ∧
    (env.txFails = true →
      (uploadPOST store userId role inp env).2.2 =
        UploadResponse.uploadFailed) ∧
    (env.txFails = false →
      (uploadPOST store userId role inp env).2.2 =
        UploadResponse.storageLimit
          ⟨activeUsage env.txStore userId env.now, STORAGE_LIMITS role,
            size⟩) ∧
    (∀ c ∈ (uploadPOST store userId role inp env).1,
      c.storagePath ≠ storedPathOf env inp name) := by
  by_cases htx : env.txFails = true
  · have hres : uploadPOST store userId role inp env =
        (env.txStore,
          (Ev.saveBlob (storedPathOf env inp name) ::
            previewSaveEvs env.preview) ++
            cleanupEvents (some (storedPathOf env inp name)) env.preview
              env.deleteFails,
          UploadResponse.uploadFailed) := by
      simp only [uploadPOST, hfile, storedPathOf]
      rw [if_neg (by simp [hsize]), if_neg (by simp [hext]),
        if_neg (by simp [hquota]), if_neg (by simp [hexp]),
        if_neg (by simp [hsave]), if_pos htx]
    rw [hres]
    exact ⟨rfl, rfl, fun _ => rfl,
      fun h => absurd htx (by simp [h]), fun c hc => hfresh c hc⟩
  · have hover : STORAGE_LIMITS role <
        activeUsage env.txStore userId env.now + size := by
      rcases hfail with h | h
      · exact absurd h htx
      · exact h
    have hres : uploadPOST store userId role inp env =
        (env.txStore,
          (Ev.saveBlob (storedPathOf env inp name) ::
            previewSaveEvs env.preview) ++
            cleanupEvents (some (storedPathOf env inp name)) env.preview
              env.deleteFails,
          UploadResponse.storageLimit
            ⟨activeUsage env.txStore userId env.now, STORAGE_LIMITS role,
              size⟩) := by
      simp only [uploadPOST, hfile, storedPathOf,
        createContentWithStorageCheck]
      rw [if_neg (by simp [hsize]), if_neg (by simp [hext]),
        if_neg (by simp [hquota]), if_neg (by simp [hexp]),
        if_neg (by simp [hsave]), if_neg htx]
      simp only [if_pos hover]
    rw [hres]
    exact ⟨rfl, rfl, fun h => absurd h htx, fun _ => rfl,
      fun c hc => hfresh c hc⟩

/-- Witness for C2: a valid upload whose transaction fails; the written
blob `up/U-photo.jpg` is deleted, the response is the 500 error, and the
store stays empty. -/
theorem c2_rollback_witness :
    (uploadPOST [] "u".data "uploader".data upInp upEnvTxFail).1 = [] ∧
    (uploadPOST [] "u".data "uploader".data upInp upEnvTxFail).2.1 =
      [Ev.saveBlob "up/U-photo.jpg".data,
        Ev.delBlob "up/U-photo.jpg".data true] ∧
    (uploadPOST [] "u".data "uploader".data upInp upEnvTxFail).2.2 =
      UploadResponse.uploadFailed := by
  have h := c2_rollback [] "u".data "uploader".data "photo.jpg".data 5
    upInp upEnvTxFail rfl (by decide) (by decide) (by decide) (by decide)
    rfl (Or.inl rfl)
    (by
      intro c hc
      simp [upEnvTxFail] at hc)
  refine ⟨?_, ?_, h.2.2.1 rfl⟩
  · rw [h.1]
    rfl
  · rw [h.2.1]
    decide

/-! ## C10: custom filenames bypass extension validation -/

/-- **C10.** In both upload handlers, extension validation is applied
only to the original filename: (A)/(A') a rejection for a bad extension
depends only on the original name, for every custom filename; (B) on
success the stored display filename is the sanitized custom name (when
one is given) while the recorded `fileExtension` and MIME type are
derived from the original filename; (C) concretely, both handlers admit
an upload with custom name `page.html` over original `photo.jpg`, whose
stored display filename ends in the block-listed `.html` while
`fileExtension` is `.jpg` and the MIME type is looked up from
`photo.jpg`. -/
theorem c10_custom_filename_not_validated :
    (∀ (store : Store) (userId role name : JStr) (size : Int)
        (custom exp : Option JStr) (env : UploadEnv),
      (validateFileSize size).valid = true →
      (validateExtension
        (if name = [] then "unnamed".data else name)).valid = false →
      uploadPOST store userId role ⟨some (name, size), custom, exp, none,
          none⟩ env =
        (store, [], UploadResponse.invalidExt
          ((validateExtension
            (if name = [] then "unnamed".data else name)).error.getD []))) ∧
    (∀ (store : Store) (userId role name : JStr) (size : Int)
        (custom exp dir slug : Option JStr) (env : UploadEnv),
      (validateFileSize size).valid = true →
      (validateExtension
        (if name = [] then "unnamed".data else name)).valid = false →
      adminUploadPOST store userId role ⟨some (name, size), custom, exp,
          dir, slug⟩ env =
        (store, env.slugs, [], UploadResponse.invalidExt
          ((validateExtension
            (if name = [] then "unnamed".data else name)).error.getD []))) ∧
    (∀ (store : Store) (userId role name : JStr) (size : Int)
        (inp : UploadInput) (env : UploadEnv),
      inp.file = some (name, size) →
      (validateFileSize size).valid = true →
      (validateExtension
        (if name = [] then "unnamed".data else name)).valid = true →
      (validateStorageLimit store userId role size env.now).valid = true →
      (validateExpiry role (some (orElseStr inp.expiry "1".data))
        env.now).valid = true →
      env.saveFails = false →
      env.txFails = false →
      activeUsage env.txStore userId env.now + size ≤ STORAGE_LIMITS role →
      uploadPOST store userId role inp env =
        (env.txStore ++ [⟨env.contentId,
            sanitizeFilename (orElseStr inp.customFilename
              (if name = [] then "unnamed".data else name)),
            (if name = [] then "unnamed".data else name),
            storedPathOf env inp name, env.preview, none, size,
            (validateExtension
              (if name = [] then "unnamed".data else name)).extension,
            (env.mimeLookup
              (if name = [] then "unnamed".data else name)).getD
              "application/octet-stream".data,
            (validateExpiry role (some (orElseStr inp.expiry "1".data))
              env.now).expiresAt,
            userId⟩],
          Ev.saveBlob (storedPathOf env inp name) ::
            previewSaveEvs env.preview,
          UploadResponse.success env.contentId
            (sanitizeFilename (orElseStr inp.customFilename
              (if name = [] then "unnamed".data else name))) size
            (validateExpiry role (some (orElseStr inp.expiry "1".data))
              env.now).expiresAt)) ∧
    ((uploadPOST [] "u".data "uploader".data upInpCustom upEnv).1 =
        [⟨"C".data, "page.html".data, "photo.jpg".data,
          "up/U-page.html".data, none, none, 5, ".jpg".data,
          "image/jpeg".data, some (JsNum.fin (Dec.ofInt 3600000)),
          "u".data⟩] ∧
      (uploadPOST [] "u".data "uploader".data upInpCustom upEnv).2.2 =
        UploadResponse.success "C".data "page.html".data 5
          (some (JsNum.fin (Dec.ofInt 3600000))) ∧
      (adminUploadPOST [] "a".data "admin".data upInpAdminCustom
          upEnv).2.2.2 =
        UploadResponse.success "C".data "page.html".data 5 none ∧
      extname "page.html".data = ".html".data ∧
      ".html".data ∈ BLOCKED_EXTENSIONS ∧
      extname "photo.jpg".data = ".jpg".data ∧
      ".jpg".data ∈ ALLOWED_EXTENSIONS) := by
  refine ⟨?_, ?_, ?_, by decide, by decide, by decide, by decide, by decide,
    by decide, by decide⟩
  · intro store userId role name size custom exp env hsize hext
    simp only [uploadPOST]
    rw [if_neg (by simp [hsize]), if_pos (by simp [hext])]
  · intro store userId role name size custom exp dir slug env hsize hext
    simp only [adminUploadPOST]
    rw [if_neg (by simp [hsize]), if_pos (by simp [hext])]
  · intro store userId role name size inp env hfile hsize hext hquota hexp
      hsave htx hquota2
    simp only [uploadPOST, hfile, storedPathOf, createContentWithStorageCheck]
    rw [if_neg (by simp [hsize]), if_neg (by simp [hext]),
      if_neg (by simp [hquota]), if_neg (by simp [hexp]),
      if_neg (by simp [hsave]), if_neg (by simp [htx]),
      if_neg (by simpa using hquota2)]

/-- Witness for C10: a custom name `nice.jpg` cannot rescue a blocked
original `run.sh`, and the success responses of part (C). -/
theorem c10_custom_filename_not_validated_witness :
    uploadPOST [] "u".data "uploader".data
        ⟨some ("run.sh".data, 5), some "nice.jpg".data, some "1".data,
          none, none⟩ upEnv =
      ([], [], UploadResponse.invalidExt
        "File extension '.sh' is blocked for security reasons".data) ∧
    (uploadPOST [] "u".data "uploader".data upInpCustom upEnv).2.2 =
      UploadResponse.success "C".data "page.html".data 5
        (some (JsNum.fin (Dec.ofInt 3600000))) := by
  constructor
  · rw [c10_custom_filename_not_validated.1 [] "u".data "uploader".data
      "run.sh".data 5 (some "nice.jpg".data) (some "1".data) upEnv
      (by decide) (by decide)]
    decide
  · exact c10_custom_filename_not_validated.2.2.2.2.1

end PartFiles
